import Mathlib

/-!
Verification development for the AI command core of a restaurant POS backend
(`apps/ai/services.py`, `apps/ai/views.py` and the data model they touch).

Shallow-embedding conventions:
* Python strings are `String` / `List Char`; `str.lower`, `str.strip` and the
  regular-expression engine used by `match_quick_pattern` are modelled below.
* Python `float` / `Decimal` arithmetic is modelled over `ℚ` (every numeric
  value the claims mention is exactly representable).
* Django rows are records in explicit lists; a query-set filter is a list
  filter; `update`/`save` produce a new state, threaded explicitly.
* A Python exception is `Except PyErr`; wall-clock time is an explicit
  `Clock` argument; the Gemini network call is an explicit oracle argument.
-/

namespace POS

/-! ## Python string primitives -/

/-- ASCII lowering, the effect of `str.lower()` on the messages involved. -/
def lowerChar (c : Char) : Char :=
  if 65 ≤ c.toNat && c.toNat ≤ 90 then Char.ofNat (c.toNat + 32) else c

def pyLower (s : List Char) : List Char := s.map lowerChar

/-- Python `str.isspace` characters (ASCII range): space, \t, \n, \r, VT, FF. -/
def isSpaceChar (c : Char) : Bool :=
  c == ' ' || c == '\t' || c == '\n' || c == '\r' ||
  c == Char.ofNat 11 || c == Char.ofNat 12

/-- `str.strip()`: drop whitespace from both ends. -/
def pyStrip (s : List Char) : List Char :=
  ((s.dropWhile isSpaceChar).reverse.dropWhile isSpaceChar).reverse

/-- `message.lower().strip()` as performed by `match_quick_pattern`. -/
def pyNorm (s : String) : List Char := pyStrip (pyLower s.data)

def isDigitChar (c : Char) : Bool := 48 ≤ c.toNat && c.toNat ≤ 57

/-- Substring test: does `sub` occur contiguously inside `hay`?
(Django `icontains` after both sides are lowered.) -/
def hasSub (hay sub : List Char) : Bool :=
  (List.range (hay.length + 1)).any fun i => (hay.drop i).take sub.length == sub

/-- `field__icontains=sub`: case-insensitive containment. -/
def icontains (field sub : String) : Bool :=
  hasSub (pyLower field.data) (pyLower sub.data)

/-- Digits of a decimal literal to a number. -/
def digitsToNat (s : List Char) : Nat :=
  s.foldl (fun n c => n * 10 + (c.toNat - 48)) 0

/-- Python `float()` on a string matched by `\d+(?:\.\d+)?`, modelled exactly
over `ℚ` (IEEE rounding is not modelled; the spec's values are exact). -/
def pyFloat (s : List Char) : ℚ :=
  match s.splitOn '.' with
  | [i] => (digitsToNat i : ℚ)
  | [i, f] => (digitsToNat i : ℚ) + (digitsToNat f : ℚ) / ((10 : ℚ) ^ f.length)
  | _ => 0

/-! ## Regular-expression engine

A backtracking matcher with Python `re` semantics for the constructs the
`QUICK_PATTERNS` table uses: literals, character classes, concatenation,
prioritized alternation, greedy and lazy repetition, numbered capture
groups and the `^` anchor.  `re.search` scans start positions left to
right and returns the first successful match; alternatives are tried left
to right; greedy repetition prefers one more iteration, lazy repetition
prefers none.  Matching uses explicit fuel (the engine only ever runs on
concrete inputs in this development, with a fuel bound large enough that
it is never exhausted there). -/

inductive RE where
  | eps : RE
  | ch : Char → RE
  | cls : (Char → Bool) → RE
  | cat : RE → RE → RE
  | alt : RE → RE → RE
  | star : Bool → RE → RE
  | grp : Nat → RE → RE
  | bol : RE

/-- Capture groups recorded so far; the most recent write is first. -/
def Groups := List (Nat × List Char)

def getGroup (g : Groups) (n : Nat) : Option (List Char) :=
  (List.find? (fun p => p.1 == n) g).map (·.2)

/-- The backtracking matcher, in continuation-passing style.  `pos` is the
absolute position in the searched string (for `^`); a repetition whose body
matched without consuming input is cut, as in CPython. -/
def mRE : Nat → RE → List Char → Nat → Groups →
    (List Char → Nat → Groups → Option Groups) → Option Groups
  | 0, _, _, _, _, _ => none
  | Nat.succ _, RE.eps, s, pos, g, k => k s pos g
  | Nat.succ _, RE.ch c, s, pos, g, k =>
    match s with
    | [] => none
    | x :: xs => if x == c then k xs (pos + 1) g else none
  | Nat.succ _, RE.cls p, s, pos, g, k =>
    match s with
    | [] => none
    | x :: xs => if p x then k xs (pos + 1) g else none
  | Nat.succ fuel, RE.cat a b, s, pos, g, k =>
    mRE fuel a s pos g (fun s' pos' g' => mRE fuel b s' pos' g' k)
  | Nat.succ fuel, RE.alt a b, s, pos, g, k =>
    (mRE fuel a s pos g k) <|> (mRE fuel b s pos g k)
  | Nat.succ fuel, RE.star true a, s, pos, g, k =>
    (mRE fuel a s pos g (fun s' pos' g' =>
      if pos' == pos then none else mRE fuel (RE.star true a) s' pos' g' k))
    <|> (k s pos g)
  | Nat.succ fuel, RE.star false a, s, pos, g, k =>
    (k s pos g)
    <|> (mRE fuel a s pos g (fun s' pos' g' =>
      if pos' == pos then none else mRE fuel (RE.star false a) s' pos' g' k))
  | Nat.succ fuel, RE.grp n a, s, pos, g, k =>
    mRE fuel a s pos g (fun s' pos' g' =>
      k s' pos' ((n, s.take (s.length - s'.length)) :: g'))
  | Nat.succ _, RE.bol, s, pos, g, k =>
    if pos == 0 then k s pos g else none

def reSize : RE → Nat
  | .eps => 1
  | .ch _ => 1
  | .cls _ => 1
  | .bol => 1
  | .cat a b => reSize a + reSize b + 1
  | .alt a b => reSize a + reSize b + 1
  | .star _ a => reSize a + 1
  | .grp _ a => reSize a + 1

def reFuel (re : RE) (s : List Char) : Nat := (reSize re + 2) * (s.length + 2)

/-- `re.search`: try each start position from the left, return the capture
groups of the first successful match. -/
def reSearch (re : RE) (s : List Char) : Option Groups :=
  (List.range (s.length + 1)).findSome? fun p =>
    mRE (reFuel re s) re (s.drop p) p [] (fun _ _ g => some g)

/-! Combinators used to transcribe the pattern source. -/

def lit : List Char → RE
  | [] => .eps
  | c :: cs => .cat (.ch c) (lit cs)

def wsRE : RE := .cls isSpaceChar
def digitRE : RE := .cls isDigitChar

/-- `.` : any character but a newline. -/
def anyRE : RE := .cls (fun c => c != '\n')

/-- Greedy `+`. -/
def plusG (r : RE) : RE := .cat r (.star true r)

/-- Lazy `+?`. -/
def plusL (r : RE) : RE := .cat r (.star false r)

/-- Greedy `?` (present first). -/
def optG (r : RE) : RE := .alt r .eps

def litS (s : String) : RE := lit s.data

/-! ## Entities and the quick-pattern table

`entities` is a Python dict whose keys depend on the intent; the handlers
read keys with `.get(key, default)`.  It is modelled as a record of
optional fields (absent key = `none`); `.get` becomes `Option.getD`. -/

structure Entities where
  items : Option (List String) := none
  available : Option Bool := none
  target : Option String := none
  modifier : Option String := none
  value : Option ℚ := none
  is_percentage : Option Bool := none
deriving DecidableEq, Repr

structure ParseResult where
  intent : String
  entities : Entities
  confidence : ℚ
deriving DecidableEq, Repr

/-- One entry of `QUICK_PATTERNS`: (regular expression, intent, extractor). -/
structure QuickPattern where
  re : RE
  intent : String
  extract : Groups → Entities

/-- `m.group(n)` where the pattern guarantees the group participated:
Python returns the captured string (here defaulted to empty). -/
def groupOrEmpty (g : Groups) (n : Nat) : List Char := (getGroup g n).getD []

/-- `m.group(n).strip()`. -/
def groupStripped (g : Groups) (n : Nat) : String := ⟨pyStrip (groupOrEmpty g n)⟩

/-- Pattern `86\s+(?:the\s+)?(.+)` (86 command: mark unavailable). -/
def re86 : RE :=
  .cat (litS "86") (.cat (plusG wsRE)
    (.cat (optG (.cat (litS "the") (plusG wsRE))) (.grp 1 (plusG anyRE))))

/-- Pattern `(?:mark|make)\s+(.+?)\s+(?:available|back)` (mark available). -/
def reMark : RE :=
  .cat (.alt (litS "mark") (litS "make")) (.cat (plusG wsRE)
    (.cat (.grp 1 (plusL anyRE)) (.cat (plusG wsRE)
      (.alt (litS "available") (litS "back")))))

/-- `(?:₹|rs\.?|inr)?` — the optional currency marker. -/
def currencyRE : RE :=
  optG (.alt (.ch '₹') (.alt (.cat (litS "rs") (optG (.ch '.'))) (litS "inr")))

/-- `\d+(?:\.\d+)?` — the magnitude. -/
def numberRE : RE :=
  .cat (plusG digitRE) (optG (.cat (.ch '.') (plusG digitRE)))

/-- Shared tail of the two price patterns:
`\s+(.+?)\s+(?:by|to)\s+(?:₹|rs\.?|inr)?\s*(\d+(?:\.\d+)?)\s*(%)?`. -/
def priceTailRE : RE :=
  .cat (plusG wsRE) (.cat (.grp 1 (plusL anyRE)) (.cat (plusG wsRE)
    (.cat (.alt (litS "by") (litS "to")) (.cat (plusG wsRE)
      (.cat currencyRE (.cat (.star true wsRE)
        (.cat (.grp 2 numberRE) (.cat (.star true wsRE)
          (optG (.grp 3 (.ch '%')))))))))))

/-- Pattern `(?:increase|raise|up)\s+(.+?)\s+(?:by|to)\s+(?:₹|rs\.?|inr)?\s*(\d+(?:\.\d+)?)\s*(%)?`. -/
def reIncrease : RE :=
  .cat (.alt (litS "increase") (.alt (litS "raise") (litS "up"))) priceTailRE

/-- Pattern `(?:decrease|reduce|lower|drop)\s+(.+?)\s+(?:by|to)\s+(?:₹|rs\.?|inr)?\s*(\d+(?:\.\d+)?)\s*(%)?`. -/
def reDecrease : RE :=
  .cat (.alt (litS "decrease") (.alt (litS "reduce")
    (.alt (litS "lower") (litS "drop")))) priceTailRE

/-- Pattern `(?:how'?s?\s+)?(?:today|sales|revenue|business)` (sales query).
The apostrophe is written `Char.ofNat 39`. -/
def reSales : RE :=
  .cat (optG (.cat (litS "how") (.cat (optG (.ch (Char.ofNat 39)))
    (.cat (optG (.ch 's')) (plusG wsRE)))))
  (.alt (litS "today") (.alt (litS "sales")
    (.alt (litS "revenue") (litS "business"))))

/-- Pattern `(?:top|best)\s*(?:seller|selling|item)` (top sellers). -/
def reTop : RE :=
  .cat (.alt (litS "top") (litS "best")) (.cat (.star true wsRE)
    (.alt (litS "seller") (.alt (litS "selling") (litS "item"))))

/-- Pattern `^(?:hi|hello|hey|good\s+(?:morning|afternoon|evening))`. -/
def reGreeting : RE :=
  .cat .bol (.alt (litS "hi") (.alt (litS "hello") (.alt (litS "hey")
    (.cat (litS "good") (.cat (plusG wsRE)
      (.alt (litS "morning") (.alt (litS "afternoon") (litS "evening"))))))))

/-- Pattern `^(?:help|what\s+can\s+you\s+do|\?)`. -/
def reHelp : RE :=
  .cat .bol (.alt (litS "help")
    (.alt (.cat (litS "what") (.cat (plusG wsRE) (.cat (litS "can")
      (.cat (plusG wsRE) (.cat (litS "you") (.cat (plusG wsRE) (litS "do")))))))
      (.ch '?')))

/-- The `QUICK_PATTERNS` table, in its source order (a design invariant:
specific phrasings come before the generic greeting/help catch-alls). -/
def QUICK_PATTERNS : List QuickPattern := [
  ⟨re86, "MENU_AVAILABILITY_TOGGLE",
    fun g => { items := some [groupStripped g 1], available := some false }⟩,
  ⟨reMark, "MENU_AVAILABILITY_TOGGLE",
    fun g => { items := some [groupStripped g 1], available := some true }⟩,
  ⟨reIncrease, "MENU_PRICE_UPDATE",
    fun g => { target := some (groupStripped g 1), modifier := some "INCREMENT",
               value := some (pyFloat (groupOrEmpty g 2)),
               is_percentage := some (!(groupOrEmpty g 3).isEmpty) }⟩,
  ⟨reDecrease, "MENU_PRICE_UPDATE",
    fun g => { target := some (groupStripped g 1), modifier := some "DECREMENT",
               value := some (pyFloat (groupOrEmpty g 2)),
               is_percentage := some (!(groupOrEmpty g 3).isEmpty) }⟩,
  ⟨reSales, "SALES_QUERY_TODAY", fun _ => {}⟩,
  ⟨reTop, "TOP_SELLERS", fun _ => {}⟩,
  ⟨reGreeting, "GREETING", fun _ => {}⟩,
  ⟨reHelp, "HELP", fun _ => {}⟩]

/-- The loop body of `match_quick_pattern`: first pattern whose search
succeeds wins, with confidence 1.0. -/
def tryPatterns : List QuickPattern → List Char → Option ParseResult
  | [], _ => none
  | p :: rest, m =>
    match reSearch p.re m with
    | some g => some ⟨p.intent, p.extract g, 1⟩
    | none => tryPatterns rest m

/-- `match_quick_pattern(message)`: lower, strip, then try the patterns in
order (the patterns are already lower-case, so the `re.IGNORECASE` flag is
absorbed by lowering the message). -/
def match_quick_pattern (message : String) : Option ParseResult :=
  tryPatterns QUICK_PATTERNS (pyNorm message)

/-! ## Data model

Rows of the tables the AI core touches.  Foreign keys are carried as
denormalized attributes where the code only uses `__`-lookups
(`order__restaurant`, `category__name`, …).  Timestamps are reduced to the
features the code compares: a calendar-day index and an hour. -/

inductive PyErr where
  | nameError (n : String)
  | integrityError
deriving DecidableEq, Repr

structure Clock where
  today : Nat
  hour : Nat
deriving DecidableEq, Repr

structure Item where
  id : Nat
  restaurantId : Nat
  categoryName : String
  name : String
  base_price : ℚ
  is_available : Bool
deriving DecidableEq, Repr

instance : Inhabited Item := ⟨⟨0, 0, "", "", 0, true⟩⟩

structure CategoryRow where
  restaurantId : Nat
  name : String
deriving DecidableEq, Repr

structure Conversation where
  id : Nat
  restaurantId : Nat
  userId : Nat
deriving DecidableEq, Repr

/-- Response messages, abstracted to the branch that produced them together
with the data interpolated into the f-string (number formatting is not
modelled; no claim inspects the rendered text). -/
inductive Msg where
  | clarifyItems
  | toggled (count : Nat) (available : Bool) (names : List String)
  | notFound (target : String)
  | priceReady (count : Nat) (target : String) (modifier : String)
      (value : ℚ) (is_percentage : Bool)
  | sales (revenue : ℚ) (orders : Nat) (covers : Nat) (avg : ℚ) (daypart : String)
  | topSellers (rows : List (String × Nat × ℚ))
  | noSales
  | greet (daypart : String)
  | helpText
  | unknown
deriving DecidableEq, Repr

/-- `AIMessage.content` holds the raw user text for USER rows and the
rendered response for ASSISTANT rows. -/
inductive MsgContent where
  | raw (s : String)
  | msg (m : Msg)
deriving DecidableEq, Repr

structure MessageRow where
  conversationId : Nat
  role : String
  content : MsgContent
  intent : String
  confidence : ℚ
  entities : Entities
deriving DecidableEq, Repr

structure Invoice where
  restaurantId : Nat
  generatedDate : Nat
  status : String
  total_amount : ℚ
deriving DecidableEq, Repr

structure Order where
  restaurantId : Nat
  createdDate : Nat
  status : String
  covers : Nat
deriving DecidableEq, Repr

/-- One order line; `restaurantId`, `orderDate`, `orderStatus` are the
parent order's fields reached through `order__…` lookups. -/
structure OrderItem where
  restaurantId : Nat
  orderDate : Nat
  orderStatus : String
  name : String
  quantity : Nat
  total_price : ℚ
deriving DecidableEq, Repr

structure Db where
  items : List Item
  categories : List CategoryRow
  conversations : List Conversation
  messages : List MessageRow
  invoices : List Invoice
  orders : List Order
  orderItems : List OrderItem
  nextConvId : Nat
deriving DecidableEq, Repr

structure Change where
  itemId : Nat
  itemName : String
  oldPrice : ℚ
  newPrice : ℚ
deriving DecidableEq, Repr

structure Preview where
  type : String
  changes : List Change
deriving DecidableEq, Repr

/-- The response dict every handler returns:
`{message, intent, requires_confirmation, preview?}`. -/
structure Resp where
  msg : Msg
  intent : String
  requires_confirmation : Bool
  preview : Option Preview := none
deriving DecidableEq, Repr

/-! ## Fallback classifier (`parse_with_gemini`) -/

/-- The loosely-structured dict Gemini may return (keys may be absent). -/
structure GeminiParsed where
  intent : Option String := none
  entities : Option Entities := none
  confidence : Option ℚ := none
deriving DecidableEq, Repr

/-- Result of `parse_with_gemini`: either one of the two canned degraded
dicts built in the function, or whatever the external call parsed to. -/
inductive PWGResult where
  | canned (intent : String) (entities : Entities) (confidence : ℚ)
      (needs_clarification : Bool) (clarification_question : Option String)
  | parsed (p : GeminiParsed)
deriving DecidableEq, Repr

/-- `parse_with_gemini(message, context)`.  `apiKey` is
`settings.GEMINI_API_KEY` (Python falsy when `None` or empty).  `external`
is the combined outcome of `model.generate_content` + `json.loads`, both of
which run inside the single `try` block: a raised exception from either is
caught by the one `except` and degraded, so they are modelled as one
oracle.  `message`, `restaurantName`, `categories` only feed the prompt. -/
def parse_with_gemini (_message : String) (_restaurantName : String)
    (_categories : List String) (apiKey : Option String)
    (external : Except PyErr GeminiParsed) : PWGResult :=
  if (apiKey.getD "") == "" then
    .canned "UNKNOWN" {} 0 true (some "AI features require Gemini API key.")
  else
    match external with
    | .ok p => .parsed p
    | .error _ => .canned "UNKNOWN" {} 0 true none

/-! ## Action handlers (`AIService._handle_*`) -/

/-- The availability filter, lines 220-227: restaurant scope and an OR of
`name__icontains` over the given fragments. -/
def availMatch (fragments : List String) (rid : Nat) (it : Item) : Bool :=
  it.restaurantId == rid && fragments.any (fun n => icontains it.name n)

/-- `_handle_availability_toggle` (lines 207-238).  The source bulk-updates
first (line 229) and then re-reads the names (line 230); the filter is on
names only, so the re-evaluated query-set selects the same rows and the
names can be read off the same filter. -/
def handle_availability_toggle (e : Entities) (rid : Nat) (db : Db) :
    Resp × Db :=
  let items := e.items.getD []
  let available := e.available.getD false
  if items.isEmpty then
    (⟨.clarifyItems, "MENU_AVAILABILITY_TOGGLE", false, none⟩, db)
  else
    let count := (db.items.filter (availMatch items rid)).length
    let names := (db.items.filter (availMatch items rid)).map (·.name)
    let updated := db.items.map fun it =>
      if availMatch items rid it then { it with is_available := available } else it
    (⟨.toggled count available names, "MENU_AVAILABILITY_TOGGLE", false, none⟩,
     { db with items := updated })

/-- `_handle_price_update` (lines 240-294).  Lines 242-245 read the
entities; line 248-252 then evaluates
`Q(name__icontains=target) | Q(category__name__icontains=target)`, but `Q`
is not bound at module scope — the only import of `Q` (line 220) is local
to `_handle_availability_toggle`, and the module imports (lines 1-10) do
not include it — so the handler raises `NameError: name 'Q' is not
defined` before any query runs and before any write. -/
def handle_price_update (e : Entities) (_rid : Nat) (db : Db) :
    (Except PyErr Resp) × Db :=
  let _target := e.target.getD ""
  let _modifier := e.modifier.getD "INCREMENT"
  let _value := e.value.getD 0
  let _is_percentage := e.is_percentage.getD false
  (.error (.nameError "Q"), db)

/-- The item filter the `Q`-expression on lines 248-252 denotes:
restaurant scope and `name` or `category__name` icontains the target. -/
def priceFilter (target : String) (rid : Nat) (it : Item) : Bool :=
  it.restaurantId == rid && (icontains it.name target || icontains it.categoryName target)

def price_match_items (target : String) (rid : Nat) (db : Db) : List Item :=
  db.items.filter (priceFilter target rid)

/-- The per-item price computation of lines 264-274. -/
def price_new (modifier : String) (value : ℚ) (is_percentage : Bool) (old : ℚ) : ℚ :=
  if modifier == "INCREMENT" then
    if is_percentage then old * (1 + value / 100) else old + value
  else
    if is_percentage then old * (1 - value / 100) else old - value

/-- Python `max(a, b)` on exact rationals (an executable spelling of
`max`, kept explicit so concrete previews evaluate in the kernel). -/
def pyMax (a b : ℚ) : ℚ := if a ≤ b then b else a

/-- The preview loop of lines 261-281: for the first 10 matched items,
record old price and `float(max(0, new_price))`.  (In the source this code
sits after the `Q`-expression that raises, see `handle_price_update`; it is
embedded here as written.) -/
def price_changes (modifier : String) (value : ℚ) (is_percentage : Bool)
    (items : List Item) : List Change :=
  (items.take 10).map fun it =>
    ⟨it.id, it.name, it.base_price,
     pyMax 0 (price_new modifier value is_percentage it.base_price)⟩

/-- Day-part word: morning before 12, afternoon before 17, else evening
(used by the sales query and the greeting). -/
def greetingWord (hour : Nat) : String :=
  if hour < 12 then "morning" else if hour < 17 then "afternoon" else "evening"

/-- `_handle_sales_query` (lines 296-329).  SQL `SUM` over an empty set is
`NULL`; the source's `or 0` turns that into 0, which the list sum gives
directly. -/
def handle_sales_query (_e : Entities) (rid : Nat) (clock : Clock) (db : Db) : Resp :=
  let invoices := db.invoices.filter fun i =>
    i.restaurantId == rid && i.generatedDate == clock.today && i.status == "PAID"
  let orders := db.orders.filter fun o =>
    o.restaurantId == rid && o.createdDate == clock.today &&
      (o.status == "COMPLETED" || o.status == "SERVED")
  let total_revenue := (invoices.map (·.total_amount)).sum
  let total_orders := orders.length
  let total_covers := (orders.map (·.covers)).sum
  let avg_ticket := if total_orders > 0 then total_revenue / (total_orders : ℚ) else 0
  ⟨.sales total_revenue total_orders total_covers avg_ticket (greetingWord clock.hour),
   "SALES_QUERY_TODAY", false, none⟩

/-- Stable insertion by quantity, descending (`order_by('-qty')`; the
database leaves the order of ties unspecified, this embedding fixes a
stable one — no claim depends on it). -/
def insertByQty (x : String × Nat × ℚ) : List (String × Nat × ℚ) → List (String × Nat × ℚ)
  | [] => [x]
  | y :: ys => if x.2.1 > y.2.1 then x :: y :: ys else y :: insertByQty x ys

def sortByQtyDesc : List (String × Nat × ℚ) → List (String × Nat × ℚ)
  | [] => []
  | x :: xs => insertByQty x (sortByQtyDesc xs)

/-- `_handle_top_sellers` (lines 331-361): group today's completed/served
order lines by name, sum quantity and revenue, sort by quantity
descending, take 5; empty result gets the dedicated no-data message. -/
def handle_top_sellers (_e : Entities) (rid : Nat) (clock : Clock) (db : Db) : Resp :=
  let rows := db.orderItems.filter fun oi =>
    oi.restaurantId == rid && oi.orderDate == clock.today &&
      (oi.orderStatus == "COMPLETED" || oi.orderStatus == "SERVED")
  let agg := ((rows.map (·.name)).dedup).map fun n =>
    (n, ((rows.filter (fun r => r.name == n)).map (·.quantity)).sum,
        ((rows.filter (fun r => r.name == n)).map (·.total_price)).sum)
  let top := (sortByQtyDesc agg).take 5
  if top.isEmpty then ⟨.noSales, "TOP_SELLERS", false, none⟩
  else ⟨.topSellers top, "TOP_SELLERS", false, none⟩

def handle_greeting (_e : Entities) (clock : Clock) : Resp :=
  ⟨.greet (greetingWord clock.hour), "GREETING", false, none⟩

def handle_help (_e : Entities) : Resp :=
  ⟨.helpText, "HELP", false, none⟩

/-- `_handle_intent` (lines 186-205): fixed dispatch table; unknown intents
(including UNKNOWN) get the generic fallback response. -/
def handle_intent (intent : String) (e : Entities) (rid : Nat) (clock : Clock)
    (db : Db) : (Except PyErr Resp) × Db :=
  if intent == "MENU_AVAILABILITY_TOGGLE" then
    let (r, db') := handle_availability_toggle e rid db
    (.ok r, db')
  else if intent == "MENU_PRICE_UPDATE" then
    handle_price_update e rid db
  else if intent == "SALES_QUERY_TODAY" then
    (.ok (handle_sales_query e rid clock db), db)
  else if intent == "TOP_SELLERS" then
    (.ok (handle_top_sellers e rid clock db), db)
  else if intent == "GREETING" then
    (.ok (handle_greeting e clock), db)
  else if intent == "HELP" then
    (.ok (handle_help e), db)
  else
    (.ok ⟨.unknown, intent, false, none⟩, db)

/-! ## `AIService.process_message` -/

structure ProcessOut where
  conversation_id : Nat
  response : Resp
deriving Repr

/-- Lines 144-156: quick pattern first, else the Gemini fallback; then
`result.get('intent', UNKNOWN)`, `result.get('entities', {})` and
`result.get('confidence', 0)`. -/
def classify (rid : Nat) (restaurantName : String) (apiKey : Option String)
    (external : Except PyErr GeminiParsed) (message : String) (db : Db) :
    String × Entities × ℚ :=
  match match_quick_pattern message with
  | some r => (r.intent, r.entities, r.confidence)
  | none =>
    match parse_with_gemini message restaurantName
        ((db.categories.filter (fun c => c.restaurantId == rid)).map (·.name))
        apiKey external with
    | .canned i en conf _ _ => (i, en, conf)
    | .parsed p => (p.intent.getD "UNKNOWN", p.entities.getD {}, p.confidence.getD 0)

/-- `AIMessage.objects.create(conversation=…, …)`: append one row. -/
def withMsg (db : Db) (row : MessageRow) : Db :=
  { db with messages := db.messages ++ [row] }

/-- The USER row of lines 158-166. -/
def userRow (conv : Conversation) (message : String)
    (cls : String × Entities × ℚ) : MessageRow :=
  ⟨conv.id, "USER", .raw message, cls.1, cls.2.2, cls.2.1⟩

/-- The body of `process_message` once a conversation row is in hand:
classify (lines 144-156), append the USER message (158-166), dispatch
(169), append the ASSISTANT message (171-179).  Latency bookkeeping is not
modelled; the ASSISTANT row keeps the model defaults for confidence and
entities, as in the source. -/
def processTurn (rid : Nat) (restaurantName : String) (apiKey : Option String)
    (external : Except PyErr GeminiParsed) (clock : Clock) (message : String)
    (conv : Conversation) (db : Db) : (Except PyErr ProcessOut) × Db :=
  match handle_intent (classify rid restaurantName apiKey external message db).1
      (classify rid restaurantName apiKey external message db).2.1 rid clock
      (withMsg db (userRow conv message
        (classify rid restaurantName apiKey external message db))) with
  | (.error err, db2) => (.error err, db2)
  | (.ok resp, db2) =>
    (.ok ⟨conv.id, resp⟩,
     withMsg db2 ⟨conv.id, "ASSISTANT", .msg resp.msg,
       (classify rid restaurantName apiKey external message db).1, 0, {}⟩)

/-- The conversation created on lines 138-142 when no session id came in. -/
def freshConv (rid uid : Nat) (db : Db) : Conversation :=
  ⟨db.nextConvId, rid, uid⟩

def withFreshConv (rid uid : Nat) (db : Db) : Db :=
  { db with conversations := db.conversations ++ [freshConv rid uid db],
            nextConvId := db.nextConvId + 1 }

/-- `process_message` (lines 129-184).  With a `conversation_id`, the
lookup (lines 134-137) is scoped to the caller's restaurant and takes
`.first()`; if it finds nothing, `conversation` is `None` and creating the
USER `AIMessage` violates the non-null `conversation` foreign key — the
insert raises and nothing is appended.  Without an id a fresh conversation
is created for the caller's restaurant and user (lines 138-142). -/
def process_message (rid uid : Nat) (restaurantName : String)
    (apiKey : Option String) (external : Except PyErr GeminiParsed)
    (clock : Clock) (message : String) (conversation_id : Option Nat)
    (db : Db) : (Except PyErr ProcessOut) × Db :=
  match conversation_id with
  | some cid =>
    match db.conversations.find? (fun c => c.id == cid && c.restaurantId == rid) with
    | some conv => processTurn rid restaurantName apiKey external clock message conv db
    | none => (.error .integrityError, db)
  | none =>
    processTurn rid restaurantName apiKey external clock message
      (freshConv rid uid db) (withFreshConv rid uid db)

/-! ## Confirmation step (`AIConfirmView.post`, views.py lines 36-69) -/

structure ConfirmChange where
  itemId : Nat
  newPrice : ℚ
deriving DecidableEq, Repr

/-- `item.save()` after `MenuItem.objects.get(id=…, restaurant=…)`: `id` is
the primary key, so at most one row matches; the fetched row's
`base_price` is rewritten. -/
def setPriceFirst (rid iid : Nat) (p : ℚ) : List Item → List Item
  | [] => []
  | it :: rest =>
    if it.id == iid && it.restaurantId == rid then
      { it with base_price := p } :: rest
    else it :: setPriceFirst rid iid p rest

/-- One iteration of the confirm loop: look the item up scoped to the
caller's restaurant; on `DoesNotExist` skip (`continue`), else apply the
new price verbatim and count the success. -/
def applyConfirm (rid : Nat) (acc : Nat × List Item) (ch : ConfirmChange) :
    Nat × List Item :=
  match acc.2.find? (fun it => it.id == ch.itemId && it.restaurantId == rid) with
  | some _ => (acc.1 + 1, setPriceFirst rid ch.itemId ch.newPrice acc.2)
  | none => acc

/-- The whole confirm loop (views.py lines 50-61), returning
`updated_count` and the resulting catalog. -/
def confirm_changes (rid : Nat) (changes : List ConfirmChange)
    (items : List Item) : Nat × List Item :=
  changes.foldl (applyConfirm rid) (0, items)

/-- Does some catalog row match this change's item id within the caller's
restaurant?  (Such an entry gets applied; others are skipped.) -/
def confirmHit (rid : Nat) (items : List Item) (ch : ConfirmChange) : Bool :=
  items.any fun it => it.id == ch.itemId && it.restaurantId == rid

/-! ## Concrete states used by witnesses -/

def sampleItems : List Item := [
  ⟨1, 1, "starters", "Paneer Tikka", 200, true⟩,
  ⟨2, 1, "mains", "Butter Chicken", 350, true⟩,
  ⟨3, 1, "drinks", "Lassi", 80, true⟩,
  ⟨4, 2, "starters", "Spring Rolls", 150, true⟩]

def sampleDb : Db :=
  ⟨sampleItems, [⟨1, "starters"⟩, ⟨1, "mains"⟩], [⟨7, 1, 1⟩, ⟨8, 2, 2⟩], [],
   [⟨1, 5, "PAID", 1000⟩], [⟨1, 5, "COMPLETED", 4⟩],
   [⟨1, 5, "COMPLETED", "Lassi", 3, 240⟩], 100⟩

def emptyDb : Db := ⟨[], [], [], [], [], [], [], 0⟩

/-- The preview carried by a dispatch outcome, if any. -/
def previewOf : Except PyErr Resp → Option Preview
  | .ok r => r.preview
  | .error _ => none

/-! ## Claims -/

/-- C5: the Pattern Matcher, tried in its fixed priority order, resolves
"86 the lassi" to MENU_AVAILABILITY_TOGGLE with entities
`{items: ["lassi"], available: false}` and confidence 1, and in particular
not to HELP or GREETING. -/
theorem c5_priority_86_the_lassi :
    match_quick_pattern "86 the lassi" =
      some ⟨"MENU_AVAILABILITY_TOGGLE",
        { items := some ["lassi"], available := some false }, 1⟩ ∧
    (match_quick_pattern "86 the lassi").map ParseResult.intent ≠ some "HELP" ∧
    (match_quick_pattern "86 the lassi").map ParseResult.intent ≠ some "GREETING" :=
  ⟨by decide, by decide, by decide⟩

/-- C2 (failing input): dispatching intent MENU_PRICE_UPDATE does not
return a well-formed response — for every entities mapping and every
state, `_handle_intent` routes to `_handle_price_update`, which raises
`NameError: name 'Q' is not defined` (the only import of `Q` is local to
`_handle_availability_toggle`), so the exception escapes the core. -/
theorem c2_price_update_dispatch_raises (e : Entities) (rid : Nat)
    (clock : Clock) (db : Db) :
    handle_intent "MENU_PRICE_UPDATE" e rid clock db =
      (Except.error (PyErr.nameError "Q"), db) := rfl

/-- C1: the price-update handler never mutates the catalog — the state it
returns is the input state, every item's stored base price and
availability are untouched, and running it twice in a row (the second run
on the state the first returned) reports the same preview change list. -/
theorem c1_price_update_never_mutates (e : Entities) (rid : Nat) (db : Db) :
    (handle_price_update e rid db).2 = db ∧
    (∀ i, i < db.items.length →
      ((handle_price_update e rid db).2.items[i]!).base_price =
        (db.items[i]!).base_price ∧
      ((handle_price_update e rid db).2.items[i]!).is_available =
        (db.items[i]!).is_available) ∧
    previewOf (handle_price_update e rid ((handle_price_update e rid db).2)).1 =
      previewOf (handle_price_update e rid db).1 :=
  ⟨rfl, fun _ _ => ⟨rfl, rfl⟩, rfl⟩

/-- Witness for C1 at a concrete state. -/
theorem c1_witness :
    0 < sampleDb.items.length ∧
    ((handle_price_update {} 1 sampleDb).2.items[0]!).base_price =
      (sampleDb.items[0]!).base_price :=
  ⟨by decide, ((c1_price_update_never_mutates {} 1 sampleDb).2.1 0 (by decide)).1⟩

/-- `pyMax` is `max`. -/
theorem pyMax_eq_max (a b : ℚ) : pyMax a b = max a b := by
  unfold pyMax
  split
  · exact (max_eq_right (by assumption)).symm
  · exact (max_eq_left (le_of_not_le (by assumption))).symm

theorem pyMax_left_le (a b : ℚ) : a ≤ pyMax a b := by
  unfold pyMax
  split
  · assumption
  · exact le_refl a

/-- C3: every entry of the price-update preview list (built over the first
10 matches of the request's target filter) carries the new price the spec
prescribes — `old * (1 ± value/100)` when percentage, else `old ± value`,
clamped below at 0 and hence never negative; and an item priced 200 with
DECREMENT value 15 (non-percentage) previews 185. -/
theorem c3_preview_price_formula :
    (∀ (modifier target : String) (value : ℚ) (ispct : Bool) (rid : Nat)
        (db : Db) (c : Change),
      c ∈ price_changes modifier value ispct (price_match_items target rid db) →
        0 ≤ c.newPrice ∧
        (modifier = "INCREMENT" → ispct = true →
          c.newPrice = max 0 (c.oldPrice * (1 + value / 100))) ∧
        (modifier = "INCREMENT" → ispct = false →
          c.newPrice = max 0 (c.oldPrice + value)) ∧
        (modifier = "DECREMENT" → ispct = true →
          c.newPrice = max 0 (c.oldPrice * (1 - value / 100))) ∧
        (modifier = "DECREMENT" → ispct = false →
          c.newPrice = max 0 (c.oldPrice - value))) ∧
    price_changes "DECREMENT" 15 false (price_match_items "starters" 1 sampleDb) =
      [⟨1, "Paneer Tikka", 200, 185⟩] := by
  constructor
  · intro modifier target value ispct rid db c hc
    simp only [price_changes, List.mem_map] at hc
    obtain ⟨it, _, rfl⟩ := hc
    refine ⟨pyMax_left_le _ _, ?_, ?_, ?_, ?_⟩ <;>
      · intro hm hp
        subst hm hp
        simp [price_new, pyMax_eq_max]
  · with_unfolding_all decide

/-- Witness for C3: the 200-priced starter with DECREMENT 15 previews a
non-negative price. -/
theorem c3_witness :
    0 ≤ (Change.mk 1 "Paneer Tikka" 200 185).newPrice :=
  (c3_preview_price_formula.1 "DECREMENT" "starters" 15 false 1 sampleDb
    ⟨1, "Paneer Tikka", 200, 185⟩ (by with_unfolding_all decide)).1

/-- C7: the fallback classifier degrades instead of failing — when the
Gemini key is unconfigured it returns the canned UNKNOWN result (empty
entities, confidence 0, needs_clarification), and when the external call
or the JSON parse fails the caught exception again yields the canned
UNKNOWN result; no failure propagates (the function is total by
construction). -/
theorem c7_gemini_never_raises (msg rname : String) (cats : List String)
    (apiKey : Option String) (ext : Except PyErr GeminiParsed) :
    ((apiKey.getD "") = "" →
      parse_with_gemini msg rname cats apiKey ext =
        .canned "UNKNOWN" {} 0 true (some "AI features require Gemini API key.")) ∧
    (∀ err, ext = .error err →
      ∃ cq, parse_with_gemini msg rname cats apiKey ext =
        .canned "UNKNOWN" {} 0 true cq) := by
  constructor
  · intro h
    simp [parse_with_gemini, h]
  · intro err herr
    by_cases hk : (apiKey.getD "") = ""
    · exact ⟨some "AI features require Gemini API key.", by simp [parse_with_gemini, hk]⟩
    · refine ⟨none, ?_⟩
      simp [parse_with_gemini, hk, herr]

/-- Witness for C7: unconfigured key and a failed external call. -/
theorem c7_witness :
    parse_with_gemini "hello" "R" [] none (.error .integrityError) =
      .canned "UNKNOWN" {} 0 true (some "AI features require Gemini API key.") :=
  (c7_gemini_never_raises "hello" "R" [] none (.error .integrityError)).1 rfl

/-- The find-first loop: a successful `tryPatterns` result comes from the
first pattern in the list whose search succeeds, via its extractor, with
confidence 1. -/
theorem tryPatterns_spec (ps : List QuickPattern) (m : List Char)
    (r : ParseResult) (h : tryPatterns ps m = some r) :
    ∃ pre p post g, ps = pre ++ p :: post ∧
      (∀ q ∈ pre, reSearch q.re m = none) ∧
      reSearch p.re m = some g ∧
      r = ⟨p.intent, p.extract g, 1⟩ := by
  induction ps with
  | nil => simp [tryPatterns] at h
  | cons p ps ih =>
    cases hs : reSearch p.re m with
    | some g =>
      refine ⟨[], p, ps, g, rfl, by simp, hs, ?_⟩
      rw [tryPatterns, hs] at h
      exact (Option.some.injEq _ _ ▸ h).symm
    | none =>
      rw [tryPatterns, hs] at h
      obtain ⟨pre, p', post, g, hps, hpre, hsearch, hr⟩ := ih h
      refine ⟨p :: pre, p', post, g, by rw [hps]; rfl, ?_, hsearch, hr⟩
      intro q hq
      rcases List.mem_cons.mp hq with hq | hq
      · rw [hq]; exact hs
      · exact hpre q hq

/-- C6: whenever some quick pattern matches, `match_quick_pattern` returns
the first matching pattern's intent, the entities its declared extractor
produces from the match, and confidence exactly 1.0; in particular
"increase burger by 20%" yields MENU_PRICE_UPDATE with target "burger",
modifier INCREMENT, value 20, is_percentage true. -/
theorem c6_first_match_contract :
    (∀ (msg : String) (r : ParseResult), match_quick_pattern msg = some r →
      r.confidence = 1 ∧
      ∃ pre p post g, QUICK_PATTERNS = pre ++ p :: post ∧
        (∀ q ∈ pre, reSearch q.re (pyNorm msg) = none) ∧
        reSearch p.re (pyNorm msg) = some g ∧
        r = ⟨p.intent, p.extract g, 1⟩) ∧
    match_quick_pattern "increase burger by 20%" =
      some ⟨"MENU_PRICE_UPDATE",
        { target := some "burger", modifier := some "INCREMENT",
          value := some 20, is_percentage := some true }, 1⟩ := by
  constructor
  · intro msg r h
    obtain ⟨pre, p, post, g, h1, h2, h3, h4⟩ := tryPatterns_spec _ _ _ h
    exact ⟨by rw [h4], pre, p, post, g, h1, h2, h3, h4⟩
  · decide

/-- Witness for C6 at the message "hello". -/
theorem c6_witness :
    (⟨"GREETING", {}, 1⟩ : ParseResult).confidence = 1 ∧
    ∃ pre p post g, QUICK_PATTERNS = pre ++ p :: post ∧
      (∀ q ∈ pre, reSearch q.re (pyNorm "hello") = none) ∧
      reSearch p.re (pyNorm "hello") = some g ∧
      (⟨"GREETING", {}, 1⟩ : ParseResult) = ⟨p.intent, p.extract g, 1⟩ :=
  c6_first_match_contract.1 "hello" ⟨"GREETING", {}, 1⟩ (by decide)

/-- The availability filter ignores the availability flag, so toggling a
row does not change whether it matches. -/
theorem availMatch_toggle (fragments : List String) (rid : Nat) (b : Bool)
    (it : Item) :
    availMatch fragments rid { it with is_available := b } =
      availMatch fragments rid it := rfl

/-- Pushing a name-based filter through the bulk-update map: the rows
selected after the update are exactly the updated versions of the rows
selected before. -/
theorem filter_map_ite (p : Item → Bool) (f : Item → Item)
    (hp : ∀ it, p (f it) = p it) (l : List Item) :
    (l.map (fun it => if p it then f it else it)).filter p =
      (l.filter p).map f := by
  induction l with
  | nil => rfl
  | cons a l ih =>
    cases hpa : p a with
    | false => simp [List.filter_cons, hpa, ih]
    | true => simp [List.filter_cons, hpa, hp, ih]

/-- The bulk update is idempotent on the state. -/
theorem map_ite_idem (p : Item → Bool) (f : Item → Item)
    (hp : ∀ it, p (f it) = p it) (hf : ∀ it, f (f it) = f it) (l : List Item) :
    ((l.map (fun it => if p it then f it else it)).map
        (fun it => if p it then f it else it)) =
      l.map (fun it => if p it then f it else it) := by
  induction l with
  | nil => rfl
  | cons a l ih =>
    cases hpa : p a with
    | false => simp [hpa, ih]
    | true => simp [hpa, hp, hf, ih]

/-- Computation rule for the toggle handler when fragments were given. -/
theorem toggle_spec (e : Entities) (rid : Nat) (db : Db)
    (hne : e.items.getD [] ≠ []) :
    handle_availability_toggle e rid db =
      (⟨.toggled ((db.items.filter (availMatch (e.items.getD []) rid)).length)
          (e.available.getD false)
          ((db.items.filter (availMatch (e.items.getD []) rid)).map (·.name)),
        "MENU_AVAILABILITY_TOGGLE", false, none⟩,
       { db with items := db.items.map fun it =>
          if availMatch (e.items.getD []) rid it
          then { it with is_available := e.available.getD false } else it }) := by
  have hie : (e.items.getD []).isEmpty = false := by
    cases h : (e.items.getD []).isEmpty
    · rfl
    · exact absurd (List.isEmpty_iff.mp h) hne
  unfold handle_availability_toggle
  simp only [hie, Bool.false_eq_true, if_false]

/-- C9: the availability toggle is idempotent — with a non-empty fragment
list, re-invoking with the same entities on the state the first call
produced returns the same response (same matched count and names) and the
same final state; with an empty fragment list it only asks which items to
update and performs no mutation. -/
theorem c9_availability_toggle_idempotent (e : Entities) (rid : Nat) (db : Db) :
    (e.items.getD [] ≠ [] →
      handle_availability_toggle e rid (handle_availability_toggle e rid db).2 =
        handle_availability_toggle e rid db) ∧
    (e.items.getD [] = [] →
      handle_availability_toggle e rid db =
        (⟨.clarifyItems, "MENU_AVAILABILITY_TOGGLE", false, none⟩, db)) := by
  constructor
  · intro hne
    have hp : ∀ it, availMatch (e.items.getD []) rid
        { it with is_available := e.available.getD false } =
        availMatch (e.items.getD []) rid it :=
      fun it => availMatch_toggle _ _ _ it
    rw [toggle_spec e rid db hne]
    rw [toggle_spec e rid _ hne]
    have hfil := filter_map_ite (availMatch (e.items.getD []) rid)
      (fun it => { it with is_available := e.available.getD false }) hp db.items
    have hidem := map_ite_idem (availMatch (e.items.getD []) rid)
      (fun it => { it with is_available := e.available.getD false }) hp
      (fun _ => rfl) db.items
    simp only [hfil, hidem, List.length_map, List.map_map]
    rfl
  · intro he
    unfold handle_availability_toggle
    simp [he]

/-- Witness for C9: toggling "lassi" off twice on the sample state. -/
theorem c9_witness :
    handle_availability_toggle
        { items := some ["lassi"], available := some false } 1
        (handle_availability_toggle
          { items := some ["lassi"], available := some false } 1 sampleDb).2 =
      handle_availability_toggle
        { items := some ["lassi"], available := some false } 1 sampleDb :=
  (c9_availability_toggle_idempotent
    { items := some ["lassi"], available := some false } 1 sampleDb).1 (by decide)

/-- C8: the sales query never divides by zero — with no completed/served
orders today the reported average ticket is 0 (and revenue and covers
default to 0 when no rows match), and with orders present the average
ticket is the paid-invoice revenue divided by the order count. -/
theorem c8_sales_query_avg_ticket (e : Entities) (rid : Nat) (clock : Clock)
    (db : Db) :
    ∃ R N C A d,
      (handle_sales_query e rid clock db).msg = Msg.sales R N C A d ∧
      (db.orders.filter (fun o =>
          o.restaurantId == rid && o.createdDate == clock.today &&
            (o.status == "COMPLETED" || o.status == "SERVED")) = [] →
        N = 0 ∧ C = 0 ∧ A = 0) ∧
      (N ≠ 0 → A = R / (N : ℚ)) ∧
      (db.invoices.filter (fun i =>
          i.restaurantId == rid && i.generatedDate == clock.today &&
            i.status == "PAID") = [] →
        R = 0) := by
  refine ⟨_, _, _, _, _, rfl, ?_, ?_, ?_⟩
  · intro h
    rw [h]
    simp
  · intro hN
    have hpos : 0 < (db.orders.filter (fun o =>
        o.restaurantId == rid && o.createdDate == clock.today &&
          (o.status == "COMPLETED" || o.status == "SERVED"))).length :=
      Nat.pos_of_ne_zero hN
    simp only [if_pos hpos]
  · intro h
    rw [h]
    simp

/-- Applying a price touches no row's id. -/
theorem setPriceFirst_map_id (rid iid : Nat) (p : ℚ) (l : List Item) :
    (setPriceFirst rid iid p l).map Item.id = l.map Item.id := by
  induction l with
  | nil => rfl
  | cons a l ih =>
    unfold setPriceFirst
    split
    · simp
    · simp [ih]

/-- Any predicate blind to `base_price` is invariant under `setPriceFirst`. -/
theorem any_setPriceFirst (rid iid : Nat) (p : ℚ) (l : List Item)
    (f : Item → Bool) (hf : ∀ it q, f { it with base_price := q } = f it) :
    (setPriceFirst rid iid p l).any f = l.any f := by
  induction l with
  | nil => rfl
  | cons a l ih =>
    unfold setPriceFirst
    split
    · simp [hf]
    · simp [ih]

/-- Pointwise description of `setPriceFirst` when row ids are unique: the
(unique) row whose id and restaurant match is rewritten, every other row
is untouched. -/
theorem setPriceFirst_getElem? (rid iid : Nat) (p : ℚ) (l : List Item)
    (hids : (l.map Item.id).Nodup) (i : Nat) :
    (setPriceFirst rid iid p l)[i]? =
      (l[i]?).map (fun it =>
        if it.id == iid && it.restaurantId == rid
        then { it with base_price := p } else it) := by
  induction l generalizing i with
  | nil => simp [setPriceFirst]
  | cons a l ih =>
    have hnc := List.nodup_cons.mp
      (show (a.id :: List.map Item.id l).Nodup from hids)
    unfold setPriceFirst
    cases hpa : (a.id == iid && a.restaurantId == rid) with
    | true =>
      have hpand := (Bool.and_eq_true _ _).mp hpa
      have haid : a.id = iid := eq_of_beq hpand.1
      have hard : a.restaurantId = rid := eq_of_beq hpand.2
      simp only [hpa, if_true]
      cases i with
      | zero => simp [haid, hard]
      | succ i =>
        simp only [List.getElem?_cons_succ]
        cases hgi : l[i]? with
        | none => simp [hgi]
        | some it =>
          have hmem := List.getElem?_mem hgi
          have hitid : it.id ≠ iid := by
            intro hii
            have hmm : it.id ∈ l.map Item.id := List.mem_map_of_mem Item.id hmem
            rw [hii, ← haid] at hmm
            exact absurd hmm hnc.1
          simp [hgi, hitid]
    | false =>
      have hprop : ¬(a.id = iid ∧ a.restaurantId = rid) := by
        intro hand
        rw [hand.1, hand.2] at hpa
        simp at hpa
      simp only [hpa, Bool.false_eq_true, if_false]
      cases i with
      | zero => simp [hprop]
      | succ i =>
        simp only [List.getElem?_cons_succ]
        exact ih hnc.2 i

/-- The confirm loop, with an arbitrary starting count: the count grows by
the number of entries that hit a row of the caller's restaurant, and each
row ends with the price of the (unique) entry naming it, if any. -/
theorem confirm_aux (rid : Nat) (changes : List ConfirmChange)
    (items : List Item) (n : Nat)
    (hids : (items.map Item.id).Nodup)
    (hch : (changes.map ConfirmChange.itemId).Nodup) :
    (changes.foldl (applyConfirm rid) (n, items)).1 =
      n + (changes.filter (confirmHit rid items)).length ∧
    ∀ i : Nat, (changes.foldl (applyConfirm rid) (n, items)).2[i]? =
      (items[i]?).map (fun (it : Item) =>
        match changes.find? (fun (ch : ConfirmChange) =>
            it.id == ch.itemId && it.restaurantId == rid) with
        | some ch => { it with base_price := ch.newPrice }
        | none => it) := by
  induction changes generalizing items n with
  | nil =>
    refine ⟨by simp, fun i => ?_⟩
    cases hgi : items[i]? <;> simp [hgi]
  | cons ch rest ih =>
    have hnc := List.nodup_cons.mp
      (show (ch.itemId :: List.map ConfirmChange.itemId rest).Nodup from hch)
    rw [List.foldl_cons]
    cases hf : List.find? (fun it => it.id == ch.itemId && it.restaurantId == rid) items with
    | none =>
      have happ : applyConfirm rid (n, items) ch = (n, items) := by
        simp [applyConfirm, hf]
      rw [happ]
      obtain ⟨hc, hg⟩ := ih items n hids hnc.2
      have hhit : confirmHit rid items ch = false := by
        unfold confirmHit
        exact List.any_eq_false.mpr (List.find?_eq_none.mp hf)
      refine ⟨by rw [hc, List.filter_cons, hhit]; simp, fun i => ?_⟩
      rw [hg i]
      cases hgi : items[i]? with
      | none => simp
      | some it =>
        have hmem := List.getElem?_mem hgi
        have hpred : (it.id == ch.itemId && it.restaurantId == rid) = false := by
          have := List.find?_eq_none.mp hf it hmem
          simpa using this
        simp [List.find?_cons, hpred]
    | some it0 =>
      have happ : applyConfirm rid (n, items) ch =
          (n + 1, setPriceFirst rid ch.itemId ch.newPrice items) := by
        simp [applyConfirm, hf]
      rw [happ]
      have hids' : ((setPriceFirst rid ch.itemId ch.newPrice items).map Item.id).Nodup := by
        rw [setPriceFirst_map_id]; exact hids
      obtain ⟨hc, hg⟩ := ih (setPriceFirst rid ch.itemId ch.newPrice items) (n + 1) hids' hnc.2
      have hhit : confirmHit rid items ch = true := by
        unfold confirmHit
        have hm := List.mem_of_find?_eq_some hf
        have hcond := List.find?_some hf
        exact List.any_eq_true.mpr ⟨it0, hm, hcond⟩
      constructor
      · rw [hc]
        have hfinv : rest.filter (confirmHit rid (setPriceFirst rid ch.itemId ch.newPrice items)) =
            rest.filter (confirmHit rid items) := by
          refine List.filter_congr fun ch' _ => ?_
          exact any_setPriceFirst rid ch.itemId ch.newPrice items _ (fun _ _ => rfl)
        rw [hfinv, List.filter_cons, hhit]
        simp only [if_true, List.length_cons]
        omega
      · intro i
        rw [hg i, setPriceFirst_getElem? rid ch.itemId ch.newPrice items hids i]
        cases hgi : items[i]? with
        | none => simp [hgi]
        | some it =>
          simp only [hgi, Option.map_some']
          cases hp : (it.id == ch.itemId && it.restaurantId == rid) with
          | true =>
            have hid : it.id = ch.itemId := eq_of_beq ((Bool.and_eq_true _ _).mp hp).1
            have hrn : rest.find? (fun ch' => it.id == ch'.itemId && it.restaurantId == rid) = none := by
              rw [List.find?_eq_none]
              intro ch' hmem hcontra
              have hcid : it.id = ch'.itemId := eq_of_beq ((Bool.and_eq_true _ _).mp hcontra).1
              have hmm : ch'.itemId ∈ rest.map ConfirmChange.itemId :=
                List.mem_map_of_mem ConfirmChange.itemId hmem
              rw [← hcid, hid] at hmm
              exact absurd hmm hnc.1
            simp [List.find?_cons, hp, hrn]
          | false =>
            simp [List.find?_cons, hp]

/-- C4: the Confirm step applies each change whose itemId names an item of
the caller's restaurant (setting that item's price to the entry's newPrice
verbatim), skips entries that match no such item without aborting the
rest, and reports `updated_count` equal to the number of applied
entries. -/
theorem c4_confirm_applies_and_skips (rid : Nat) (changes : List ConfirmChange)
    (items : List Item) (hids : (items.map Item.id).Nodup)
    (hch : (changes.map ConfirmChange.itemId).Nodup) :
    (confirm_changes rid changes items).1 =
      (changes.filter (confirmHit rid items)).length ∧
    ∀ i : Nat, (confirm_changes rid changes items).2[i]? =
      (items[i]?).map (fun (it : Item) =>
        match changes.find? (fun (ch : ConfirmChange) =>
            it.id == ch.itemId && it.restaurantId == rid) with
        | some ch => { it with base_price := ch.newPrice }
        | none => it) := by
  have h := confirm_aux rid changes items 0 hids hch
  exact ⟨by unfold confirm_changes; rw [h.1]; omega, h.2⟩

/-- Witness for C4: one valid id (1, priced 200) and one non-existent id
(42) — exactly the valid item is updated and `updated_count` is 1. -/
theorem c4_witness :
    (confirm_changes 1 [⟨1, 99⟩, ⟨42, 5⟩] sampleItems).1 = 1 ∧
    (confirm_changes 1 [⟨1, 99⟩, ⟨42, 5⟩] sampleItems).2[0]? =
      some ⟨1, 1, "starters", "Paneer Tikka", 99, true⟩ ∧
    (confirm_changes 1 [⟨1, 99⟩, ⟨42, 5⟩] sampleItems).2[1]? =
      some ⟨2, 1, "mains", "Butter Chicken", 350, true⟩ := by
  have h := c4_confirm_applies_and_skips 1 [⟨1, 99⟩, ⟨42, 5⟩] sampleItems
    (by decide) (by decide)
  refine ⟨?_, ?_, ?_⟩
  · rw [h.1]; decide
  · rw [h.2 0]; decide
  · rw [h.2 1]; decide

/-- Witness for C8: a state with no orders and no invoices reports zero
revenue, covers and average ticket. -/
theorem c8_witness :
    ∃ R N C A d,
      (handle_sales_query {} 1 ⟨5, 10⟩ emptyDb).msg = Msg.sales R N C A d ∧
      N = 0 ∧ C = 0 ∧ A = 0 ∧ R = 0 := by
  obtain ⟨R, N, C, A, d, h1, h2, _, h4⟩ :=
    c8_sales_query_avg_ticket {} 1 ⟨5, 10⟩ emptyDb
  obtain ⟨hN, hC, hA⟩ := h2 (by decide)
  exact ⟨R, N, C, A, d, h1, hN, hC, hA, h4 (by decide)⟩


/-- Frame of the toggle handler: it only rewrites menu items of the
caller's restaurant; conversations and messages are untouched, and rows of
other restaurants are untouched. -/
theorem toggle_frame (e : Entities) (rid : Nat) (db : Db) :
    (handle_availability_toggle e rid db).2.conversations = db.conversations ∧
    (handle_availability_toggle e rid db).2.messages = db.messages ∧
    ∀ (i : Nat) (it : Item), db.items[i]? = some it → it.restaurantId ≠ rid →
      (handle_availability_toggle e rid db).2.items[i]? = some it := by
  unfold handle_availability_toggle
  cases hie : (e.items.getD []).isEmpty with
  | true =>
    simp only [hie, if_true]
    refine ⟨by trivial, by trivial, fun i it h _ => h⟩
  | false =>
    simp only [hie, Bool.false_eq_true, if_false]
    refine ⟨by trivial, by trivial, fun i it hgi hne => ?_⟩
    rw [List.getElem?_map, hgi]
    have hb : (it.restaurantId == rid) = false := by simpa using hne
    have hm : availMatch (e.items.getD []) rid it = false := by
      unfold availMatch
      rw [hb]
      rfl
    simp [hm]

/-- Frame of the dispatcher: whatever the intent, conversations and
messages are untouched and items of other restaurants are untouched. -/
theorem handle_intent_frame (intent : String) (e : Entities) (rid : Nat)
    (clock : Clock) (db : Db) :
    (handle_intent intent e rid clock db).2.conversations = db.conversations ∧
    (handle_intent intent e rid clock db).2.messages = db.messages ∧
    ∀ (i : Nat) (it : Item), db.items[i]? = some it → it.restaurantId ≠ rid →
      (handle_intent intent e rid clock db).2.items[i]? = some it := by
  obtain ⟨h1, h2, h3⟩ := toggle_frame e rid db
  unfold handle_intent
  by_cases hA : (intent == "MENU_AVAILABILITY_TOGGLE") = true
  · rw [if_pos hA]
    cases hav : handle_availability_toggle e rid db with
    | mk r db2 =>
      rw [hav] at h1 h2 h3
      exact ⟨h1, h2, h3⟩
  · rw [if_neg hA]
    by_cases hB : (intent == "MENU_PRICE_UPDATE") = true
    · rw [if_pos hB]
      exact ⟨rfl, rfl, fun i it h _ => h⟩
    · rw [if_neg hB]
      by_cases hC : (intent == "SALES_QUERY_TODAY") = true
      · rw [if_pos hC]
        exact ⟨rfl, rfl, fun i it h _ => h⟩
      · rw [if_neg hC]
        by_cases hD : (intent == "TOP_SELLERS") = true
        · rw [if_pos hD]
          exact ⟨rfl, rfl, fun i it h _ => h⟩
        · rw [if_neg hD]
          by_cases hE : (intent == "GREETING") = true
          · rw [if_pos hE]
            exact ⟨rfl, rfl, fun i it h _ => h⟩
          · rw [if_neg hE]
            by_cases hF : (intent == "HELP") = true
            · rw [if_pos hF]
              exact ⟨rfl, rfl, fun i it h _ => h⟩
            · rw [if_neg hF]
              exact ⟨rfl, rfl, fun i it h _ => h⟩

/-- Frame of one conversation turn: conversations are untouched, the only
new message rows belong to the given conversation, and items of other
restaurants are untouched. -/
theorem processTurn_frame (rid : Nat) (rname : String) (apiKey : Option String)
    (ext : Except PyErr GeminiParsed) (clock : Clock) (message : String)
    (conv : Conversation) (db : Db) :
    (processTurn rid rname apiKey ext clock message conv db).2.conversations =
      db.conversations ∧
    (∃ rows, (processTurn rid rname apiKey ext clock message conv db).2.messages =
        db.messages ++ rows ∧
      ∀ m ∈ rows, m.conversationId = conv.id) ∧
    ∀ (i : Nat) (it : Item), db.items[i]? = some it → it.restaurantId ≠ rid →
      (processTurn rid rname apiKey ext clock message conv db).2.items[i]? = some it := by
  obtain ⟨h1, h2, h3⟩ := handle_intent_frame
    (classify rid rname apiKey ext message db).1
    (classify rid rname apiKey ext message db).2.1 rid clock
    (withMsg db (userRow conv message (classify rid rname apiKey ext message db)))
  unfold processTurn
  cases hmi : handle_intent (classify rid rname apiKey ext message db).1
      (classify rid rname apiKey ext message db).2.1 rid clock
      (withMsg db (userRow conv message (classify rid rname apiKey ext message db))) with
  | mk res db2 =>
    rw [hmi] at h1 h2 h3
    cases res with
    | error err =>
      refine ⟨h1, ⟨[userRow conv message (classify rid rname apiKey ext message db)], h2, ?_⟩, h3⟩
      intro m hm
      rw [List.mem_singleton.mp hm]
      rfl
    | ok resp =>
      refine ⟨h1, ?_, h3⟩
      refine ⟨[userRow conv message (classify rid rname apiKey ext message db),
        ⟨conv.id, "ASSISTANT", .msg resp.msg,
          (classify rid rname apiKey ext message db).1, 0, {}⟩], ?_, ?_⟩
      · show db2.messages ++ _ = _
        rw [h2]
        show (db.messages ++ _) ++ _ = _
        rw [List.append_assoc]
        rfl
      · intro m hm
        rcases List.mem_cons.mp hm with hm | hm
        · rw [hm]; rfl
        · rw [List.mem_singleton.mp hm]

/-- The confirm step never rewrites a row of another restaurant. -/
theorem setPriceFirst_foreign (rid iid : Nat) (p : ℚ) (l : List Item)
    (i : Nat) (it : Item) (hgi : l[i]? = some it)
    (hne : it.restaurantId ≠ rid) :
    (setPriceFirst rid iid p l)[i]? = some it := by
  induction l generalizing i with
  | nil => simp at hgi
  | cons a l ih =>
    unfold setPriceFirst
    cases hpa : (a.id == iid && a.restaurantId == rid) with
    | true =>
      simp only [hpa, if_true]
      cases i with
      | zero =>
        have haeq : a = it := by simpa using hgi
        have hard : a.restaurantId = rid :=
          eq_of_beq ((Bool.and_eq_true _ _).mp hpa).2
        rw [haeq] at hard
        exact absurd hard hne
      | succ i =>
        simp only [List.getElem?_cons_succ] at hgi ⊢
        exact hgi
    | false =>
      simp only [hpa, Bool.false_eq_true, if_false]
      cases i with
      | zero => simpa using hgi
      | succ i =>
        simp only [List.getElem?_cons_succ] at hgi ⊢
        exact ih i hgi

theorem confirm_changes_foreign (rid : Nat) (changes : List ConfirmChange)
    (items : List Item) (i : Nat) (it : Item) (hgi : items[i]? = some it)
    (hne : it.restaurantId ≠ rid) :
    (confirm_changes rid changes items).2[i]? = some it := by
  suffices h : ∀ (n : Nat) (l : List Item), l[i]? = some it →
      (changes.foldl (applyConfirm rid) (n, l)).2[i]? = some it from
    h 0 items hgi
  induction changes with
  | nil => intro n l h; exact h
  | cons ch rest ih =>
    intro n l h
    rw [List.foldl_cons]
    cases hf : l.find? (fun x => x.id == ch.itemId && x.restaurantId == rid) with
    | none =>
      have happ : applyConfirm rid (n, l) ch = (n, l) := by
        simp [applyConfirm, hf]
      rw [happ]
      exact ih n l h
    | some it0 =>
      have happ : applyConfirm rid (n, l) ch =
          (n + 1, setPriceFirst rid ch.itemId ch.newPrice l) := by
        simp [applyConfirm, hf]
      rw [happ]
      exact ih (n + 1) _ (setPriceFirst_foreign rid ch.itemId ch.newPrice l i it h hne)

/-- C10: every operation is scoped to the caller's restaurant — the parse
pipeline (conversation lookup or creation, availability filter, price
filter, message log) never rewrites a menu item of another restaurant and
only appends messages to conversations of the caller's restaurant; and the
confirm step never rewrites an item of another restaurant. -/
theorem c10_tenant_isolation :
    (∀ (rid uid : Nat) (rname : String) (apiKey : Option String)
        (ext : Except PyErr GeminiParsed) (clock : Clock) (message : String)
        (cid : Option Nat) (db : Db),
      (∀ (i : Nat) (it : Item), db.items[i]? = some it → it.restaurantId ≠ rid →
        (process_message rid uid rname apiKey ext clock message cid db).2.items[i]? =
          some it) ∧
      (∃ rows,
        (process_message rid uid rname apiKey ext clock message cid db).2.messages =
          db.messages ++ rows ∧
        ∀ m ∈ rows, ∃ c,
          c ∈ (process_message rid uid rname apiKey ext clock message cid db).2.conversations ∧
          c.id = m.conversationId ∧ c.restaurantId = rid)) ∧
    (∀ (rid : Nat) (changes : List ConfirmChange) (items : List Item)
        (i : Nat) (it : Item), items[i]? = some it → it.restaurantId ≠ rid →
      (confirm_changes rid changes items).2[i]? = some it) := by
  constructor
  · intro rid uid rname apiKey ext clock message cid db
    cases cid with
    | some cidv =>
      have hred : process_message rid uid rname apiKey ext clock message (some cidv) db =
          (match db.conversations.find?
              (fun c => c.id == cidv && c.restaurantId == rid) with
           | some conv => processTurn rid rname apiKey ext clock message conv db
           | none => (.error .integrityError, db)) := rfl
      rw [hred]
      cases hfind : db.conversations.find?
          (fun c => c.id == cidv && c.restaurantId == rid) with
      | some conv =>
        obtain ⟨h1, ⟨rows, hrows, hcid⟩, h3⟩ :=
          processTurn_frame rid rname apiKey ext clock message conv db
        have hconvmem : conv ∈ db.conversations := List.mem_of_find?_eq_some hfind
        have hconvcond := List.find?_some hfind
        have hconvrid : conv.restaurantId = rid :=
          eq_of_beq ((Bool.and_eq_true _ _).mp hconvcond).2
        refine ⟨h3, rows, hrows, fun m hm => ⟨conv, ?_, (hcid m hm).symm, hconvrid⟩⟩
        have hmem : conv ∈
            (processTurn rid rname apiKey ext clock message conv db).2.conversations := by
          rw [h1]
          exact hconvmem
        exact hmem
      | none =>
        refine ⟨fun i it h _ => h, [], (List.append_nil db.messages).symm, ?_⟩
        intro m hm
        exact absurd hm (List.not_mem_nil m)
    | none =>
      obtain ⟨h1, ⟨rows, hrows, hcid⟩, h3⟩ :=
        processTurn_frame rid rname apiKey ext clock message
          (freshConv rid uid db) (withFreshConv rid uid db)
      refine ⟨h3, rows, hrows, fun m hm => ⟨freshConv rid uid db, ?_, (hcid m hm).symm, rfl⟩⟩
      have hmem : freshConv rid uid db ∈
          (processTurn rid rname apiKey ext clock message (freshConv rid uid db)
            (withFreshConv rid uid db)).2.conversations := by
        rw [h1]
        exact List.mem_append_right _ (List.mem_singleton.mpr rfl)
      exact hmem
  · intro rid changes items i it hgi hne
    exact confirm_changes_foreign rid changes items i it hgi hne

/-- Witness for C10: a parse turn by restaurant 1 leaves restaurant 2's
item untouched. -/
theorem c10_witness :
    (process_message 1 1 "R" none (.ok {}) ⟨5, 10⟩ "86 the lassi" none
        sampleDb).2.items[3]? =
      some ⟨4, 2, "starters", "Spring Rolls", 150, true⟩ :=
  (c10_tenant_isolation.1 1 1 "R" none (.ok {}) ⟨5, 10⟩ "86 the lassi" none
    sampleDb).1 3 ⟨4, 2, "starters", "Spring Rolls", 150, true⟩
    (by decide) (by decide)


end POS




